import Mathlib

/-!
Verification of the IONOS DNS API client
(`providers/dns/ionos/internal/client.go`).

The Go client is embedded shallowly:

* JSON handling (`encoding/json`) is modelled by an executable syntax
  checker (`jsonParse`, `jsonDecodeOne`) over a `Json` value type, together
  with per-type decoding functions that follow Go's unmarshalling rules for
  the struct types involved (object keys matched by tag, unknown keys
  ignored, `null` accepted for slices and structs, kind mismatches fail).
* URLs are structured values; `url.URL.JoinPath` is modelled including the
  `path.Join`/`path.Clean` segment cleaning it performs (empty, `.` and
  `..` segments are resolved).  Percent-escaping is modelled as the
  identity, which is faithful for inputs free of percent escapes.
* Each API operation is a function from the delivered HTTP response to the
  pair of (request sent, result).  Transport failures and request-creation
  failures happen before any response exists and are outside the embedded
  state; the response body is a `Reader` carrying the readable bytes plus a
  flag recording whether reading fails at the end, so that the treatment of
  read errors (`io.ReadAll`'s error being discarded in `readError`) is
  visible in the model.
* The struct types of the package (`Zone`, `Record`, `CustomerZone`,
  `RecordsFilter`, `ClientError`) are declared in a file of the package
  that is not part of the sources given; they are modelled from the spec
  where so marked.
-/

namespace Ionos

/-- JSON values as recognised by Go `encoding/json`.  Numbers keep their raw
text, object fields keep source order. -/
inductive Json where
  | str (value : String)
  | num (raw : String)
  | bool (flag : Bool)
  | null
  | arr (items : List Json)
  | obj (pairs : List (String × Json))

/-- Skip JSON whitespace (space, tab, newline, carriage return). -/
def skipWs : List Char → List Char
  | [] => []
  | c :: rest =>
    if c = ' ' ∨ c = '\t' ∨ c = '\n' ∨ c = '\r' then skipWs rest else c :: rest

/-- Translation of a JSON escape character (the character after a backslash).
`\uXXXX` escapes are not modelled; none of the payloads considered use them. -/
def escChar (e : Char) : Option Char :=
  if e = 'n' then some '\n'
  else if e = 't' then some '\t'
  else if e = 'r' then some '\r'
  else if e = '"' then some '"'
  else if e = '\\' then some '\\'
  else if e = '/' then some '/'
  else if e = 'b' then some (Char.ofNat 8)
  else if e = 'f' then some (Char.ofNat 12)
  else none

/-- Parse the remainder of a JSON string literal (the opening quote has been
consumed); returns the decoded string and the rest of the input. -/
def parseStrAux (cs : List Char) (acc : List Char) : Option (String × List Char) :=
  match cs with
  | [] => none
  | c :: rest =>
    if c = '"' then some (String.mk acc, rest)
    else if c = '\\' then
      match rest with
      | [] => none
      | e :: rest2 =>
        match escChar e with
        | some ch => parseStrAux rest2 (acc ++ [ch])
        | none => none
    else if c.toNat < 32 then none
    else parseStrAux rest (acc ++ [c])

/-- Take a maximal run of decimal digits. -/
def takeDigits (cs : List Char) (acc : List Char) : List Char × List Char :=
  match cs with
  | [] => (acc, [])
  | c :: rest => if c.isDigit then takeDigits rest (acc ++ [c]) else (acc, c :: rest)

/-- Integer part of a JSON number: `0`, or a nonzero digit followed by digits. -/
def parseIntPart (cs : List Char) : Option (List Char × List Char) :=
  match cs with
  | [] => none
  | c :: rest =>
    if c = '0' then some ([c], rest)
    else if c.isDigit then
      match takeDigits rest [] with
      | (ds, rest2) => some (c :: ds, rest2)
    else none

/-- Optional fractional part of a JSON number: `.` followed by digits. -/
def parseFracPart (cs : List Char) : Option (List Char × List Char) :=
  match cs with
  | [] => some ([], [])
  | c :: rest =>
    if c = '.' then
      match takeDigits rest [] with
      | ([], _) => none
      | (ds, rest2) => some ('.' :: ds, rest2)
    else some ([], c :: rest)

/-- Optional exponent part of a JSON number: `e`/`E`, optional sign, digits. -/
def parseExpPart (cs : List Char) : Option (List Char × List Char) :=
  match cs with
  | [] => some ([], [])
  | c :: rest =>
    if c = 'e' ∨ c = 'E' then
      match
        (match rest with
         | s :: r => if s = '+' ∨ s = '-' then ([s], r) else (([] : List Char), s :: r)
         | [] => (([] : List Char), ([] : List Char))) with
      | (sgn, rest1) =>
        match takeDigits rest1 [] with
        | ([], _) => none
        | (ds, rest2) => some (c :: (sgn ++ ds), rest2)
    else some ([], c :: rest)

/-- A JSON number, returned as its raw text. -/
def parseNumber (cs : List Char) : Option (String × List Char) :=
  match
    (match cs with
     | c :: r => if c = '-' then (['-'], r) else (([] : List Char), c :: r)
     | [] => (([] : List Char), ([] : List Char))) with
  | (sgn, cs1) =>
    match parseIntPart cs1 with
    | none => none
    | some (ip, cs2) =>
      match parseFracPart cs2 with
      | none => none
      | some (fp, cs3) =>
        match parseExpPart cs3 with
        | none => none
        | some (ep, cs4) => some (String.mk (sgn ++ ip ++ fp ++ ep), cs4)

/-- Match a fixed run of characters (used for `true`, `false`, `null`). -/
def stripRunChars (p : List Char) (cs : List Char) : Option (List Char) :=
  match p, cs with
  | [], rest => some rest
  | a :: ps, c :: rest => if a = c then stripRunChars ps rest else none
  | _ :: _, [] => none

mutual

/-- Recursive-descent JSON value parser, fuel-indexed.  Accepts the value
grammar of Go `encoding/json` (modulo `\uXXXX` escapes). -/
def parseVal : Nat → List Char → Option (Json × List Char)
  | 0, _ => none
  | Nat.succ fuel, cs =>
    match skipWs cs with
    | [] => none
    | c :: rest =>
      if c = '"' then
        match parseStrAux rest [] with
        | some (s, r) => some (Json.str s, r)
        | none => none
      else if c = '[' then
        match skipWs rest with
        | ']' :: r => some (Json.arr [], r)
        | cs2 =>
          match parseElems fuel cs2 with
          | some (xs, r) => some (Json.arr xs, r)
          | none => none
      else if c = '\x7b' then
        match skipWs rest with
        | '\x7d' :: r => some (Json.obj [], r)
        | cs2 =>
          match parseMembers fuel cs2 with
          | some (fs, r) => some (Json.obj fs, r)
          | none => none
      else if c = 't' then
        match stripRunChars ['r', 'u', 'e'] rest with
        | some r => some (Json.bool true, r)
        | none => none
      else if c = 'f' then
        match stripRunChars ['a', 'l', 's', 'e'] rest with
        | some r => some (Json.bool false, r)
        | none => none
      else if c = 'n' then
        match stripRunChars ['u', 'l', 'l'] rest with
        | some r => some (Json.null, r)
        | none => none
      else if c = '-' ∨ c.isDigit then
        match parseNumber (c :: rest) with
        | some (s, r) => some (Json.num s, r)
        | none => none
      else none

/-- One-or-more comma-separated array elements, ending at `]`. -/
def parseElems : Nat → List Char → Option (List Json × List Char)
  | 0, _ => none
  | Nat.succ fuel, cs =>
    match parseVal fuel cs with
    | none => none
    | some (v, rest) =>
      match skipWs rest with
      | ',' :: r =>
        match parseElems fuel r with
        | some (xs, r2) => some (v :: xs, r2)
        | none => none
      | ']' :: r => some ([v], r)
      | _ => none

/-- One-or-more comma-separated object members, ending at the closing brace. -/
def parseMembers : Nat → List Char → Option (List (String × Json) × List Char)
  | 0, _ => none
  | Nat.succ fuel, cs =>
    match skipWs cs with
    | [] => none
    | c :: rest =>
      if c = '"' then
        match parseStrAux rest [] with
        | none => none
        | some (k, r1) =>
          match skipWs r1 with
          | ':' :: r2 =>
            match parseVal fuel r2 with
            | none => none
            | some (v, r3) =>
              match skipWs r3 with
              | ',' :: r4 =>
                match parseMembers fuel r4 with
                | some (fs, r5) => some ((k, v) :: fs, r5)
                | none => none
              | '\x7d' :: r4 => some ([(k, v)], r4)
              | _ => none
          | _ => none
      else none

end

/-- Model of the syntax check performed by Go `json.Unmarshal`: the input must
be exactly one JSON value surrounded only by whitespace. -/
def jsonParse (s : String) : Option Json :=
  match parseVal (2 * s.length + 4) s.data with
  | some (v, rest) => if skipWs rest = [] then some v else none
  | none => none

/-- Modelled from the spec: the package's `Zone` struct (declared in a file of
the package that is not among the given sources) — "identifier + name of a
DNS zone owned by the account", with JSON keys `id` and `name`. -/
structure Zone where
  id : String := ""
  name : String := ""
deriving DecidableEq

/-- Modelled from the spec: the package's `Record` struct — "name, type,
content, TTL, and optional metadata (priority, disabled flag)". -/
structure Record where
  name : String := ""
  type : String := ""
  content : String := ""
  ttl : Int := 0
  prio : Int := 0
  disabled : Bool := false
deriving DecidableEq

/-- Modelled from the spec: the package's `CustomerZone` struct — "a zone plus
its embedded list of records, as returned by the get-records endpoint — a
nested envelope".  The source shows it is a struct with a `Records` field
(client.go line 132). -/
structure CustomerZone where
  id : String := ""
  name : String := ""
  records : List Record := []
deriving DecidableEq

/-- Modelled from the spec: the package's `RecordsFilter` struct — "an
optional set of query parameters (e.g., record type, name) used to narrow a
read", with url tags whose zero-value fields are omitted. -/
structure RecordsFilter where
  suffix : String := ""
  recordName : String := ""
  recordType : String := ""
deriving DecidableEq

/-- Modelled from the spec: one element of the structured vendor error list
that `readError` unmarshals into `ClientError.errors`: an error code plus a
message. -/
structure ApiErr where
  code : String := ""
  message : String := ""
deriving DecidableEq

/-- Modelled from the spec: the package's `ClientError` struct — "tagged
result capturing an HTTP status code plus either a structured list of
vendor-reported error messages or a raw text fallback".  The source shows the
fields `StatusCode`, `errors` (the unmarshal target) and `message` (the raw
fallback, client.go lines 174-182). -/
structure ClientError where
  statusCode : Nat
  errors : List ApiErr := []
  message : String := ""
deriving DecidableEq

/-! Go `encoding/json` unmarshalling into the types above: an object member
is applied to the value being built; keys are matched by their tag (the
case-insensitive fallback match is not modelled; every payload considered
uses exact keys), later duplicates overwrite, unknown keys are ignored, a
JSON `null` leaves any field unchanged without error, and any other kind
mismatch fails. -/

/-- One object member applied to a `Zone`. -/
def zoneSetField (z : Zone) : String × Json → Option Zone
  | ("id", Json.str v) => some { z with id := v }
  | ("name", Json.str v) => some { z with name := v }
  | ("id", Json.null) => some z
  | ("name", Json.null) => some z
  | ("id", _) => none
  | ("name", _) => none
  | _ => some z

/-- Unmarshal one JSON value as a `Zone`. -/
def decodeZone : Json → Option Zone
  | Json.obj fields => fields.foldlM zoneSetField {}
  | Json.null => some {}
  | _ => none

/-- Unmarshal one JSON value as `[]Zone`. -/
def decodeZones : Json → Option (List Zone)
  | Json.null => some []
  | Json.arr xs => xs.mapM decodeZone
  | _ => none

/-- One object member applied to a `Record`. -/
def recordSetField (r : Record) : String × Json → Option Record
  | ("name", Json.str v) => some { r with name := v }
  | ("type", Json.str v) => some { r with type := v }
  | ("content", Json.str v) => some { r with content := v }
  | ("ttl", Json.num raw) =>
    (match raw.toInt? with
     | some n => some { r with ttl := n }
     | none => none)
  | ("prio", Json.num raw) =>
    (match raw.toInt? with
     | some n => some { r with prio := n }
     | none => none)
  | ("disabled", Json.bool b) => some { r with disabled := b }
  | ("name", Json.null) => some r
  | ("type", Json.null) => some r
  | ("content", Json.null) => some r
  | ("ttl", Json.null) => some r
  | ("prio", Json.null) => some r
  | ("disabled", Json.null) => some r
  | ("name", _) => none
  | ("type", _) => none
  | ("content", _) => none
  | ("ttl", _) => none
  | ("prio", _) => none
  | ("disabled", _) => none
  | _ => some r

/-- Unmarshal one JSON value as a `Record`. -/
def decodeRecord : Json → Option Record
  | Json.obj fields => fields.foldlM recordSetField {}
  | Json.null => some {}
  | _ => none

/-- Unmarshal one JSON value as `[]Record`. -/
def decodeRecords : Json → Option (List Record)
  | Json.null => some []
  | Json.arr xs => xs.mapM decodeRecord
  | _ => none

/-- One object member applied to a `CustomerZone`. -/
def customerZoneSetField (z : CustomerZone) : String × Json → Option CustomerZone
  | ("id", Json.str v) => some { z with id := v }
  | ("name", Json.str v) => some { z with name := v }
  | ("records", j) =>
    (match decodeRecords j with
     | some rs => some { z with records := rs }
     | none => none)
  | ("id", Json.null) => some z
  | ("name", Json.null) => some z
  | ("id", _) => none
  | ("name", _) => none
  | _ => some z

/-- Unmarshal one JSON value as a `CustomerZone`.  A JSON array (or any
non-object kind) does not unmarshal into a Go struct. -/
def decodeCustomerZone : Json → Option CustomerZone
  | Json.obj fields => fields.foldlM customerZoneSetField {}
  | Json.null => some {}
  | _ => none

/-- One object member applied to an `ApiErr`. -/
def apiErrSetField (e : ApiErr) : String × Json → Option ApiErr
  | ("code", Json.str v) => some { e with code := v }
  | ("message", Json.str v) => some { e with message := v }
  | ("code", Json.null) => some e
  | ("message", Json.null) => some e
  | ("code", _) => none
  | ("message", _) => none
  | _ => some e

/-- Unmarshal one JSON value as an `ApiErr`. -/
def decodeApiErr : Json → Option ApiErr
  | Json.obj fields => fields.foldlM apiErrSetField {}
  | Json.null => some {}
  | _ => none

/-- Unmarshal one JSON value as `[]Error` (the structured vendor error
list). -/
def decodeApiErrs : Json → Option (List ApiErr)
  | Json.null => some []
  | Json.arr xs => xs.mapM decodeApiErr
  | _ => none

/-- `json.Unmarshal(bodyBytes, &cErr.errors)`: whole-input syntax check, then
decoding into `[]Error`.  On failure the partially-decoded slice contents are
not modelled (nothing consults `errors` on that path). -/
def unmarshalErrors (s : String) : Option (List ApiErr) :=
  (jsonParse s).bind decodeApiErrs

/-- A response body reader: the bytes reading yields, plus whether reading
ends in an error (`io.ReadAll` then returns these bytes together with that
error). -/
structure Reader where
  bytes : String
  failsAfter : Bool := false
deriving DecidableEq

/-- `readError` (client.go lines 171-183): read the whole body — the read
error, if any, is discarded — build a `ClientError` carrying the status code,
try to unmarshal the bytes as the structured vendor error list, and on a
failed unmarshal store the raw bytes as the plain-text message. -/
def readError (body : Reader) (statusCode : Nat) : ClientError :=
  let bodyBytes := body.bytes
  match unmarshalErrors bodyBytes with
  | some es => { statusCode := statusCode, errors := es }
  | none => { statusCode := statusCode, message := bodyBytes }

/-- `json.NewDecoder(body).Decode(&x)`, syntax phase: one JSON value is read
from the front of the stream (trailing bytes are not inspected); a failing
read surfaces as a decode error. -/
def jsonDecodeOne (r : Reader) : Option Json :=
  if r.failsAfter then none
  else
    match parseVal (2 * r.bytes.length + 4) r.bytes.data with
    | some (v, _) => some v
    | none => none

/-- A parsed URL: scheme, host, the rooted path as its list of segments, and
the raw query.  Percent-escaping is modelled as the identity, faithful for
inputs free of percent escapes. -/
structure URL where
  scheme : String
  host : String
  pathSegs : List String
  rawQuery : String := ""
deriving DecidableEq

/-- The textual path of a URL. -/
def URL.pathString (u : URL) : String :=
  "/" ++ String.intercalate "/" u.pathSegs

/-- Split a character list at every `/`, keeping empty pieces. -/
def splitSlashAux (cs : List Char) (acc : List Char) : List String :=
  match cs with
  | [] => [String.mk acc]
  | c :: rest =>
    if c = '/' then String.mk acc :: splitSlashAux rest []
    else splitSlashAux rest (acc ++ [c])

/-- Split a string at every `/`. -/
def splitSegs (s : String) : List String := splitSlashAux s.data []

/-- Everything before the first occurrence of `stop`, and the remainder
beginning with `stop` when it occurs. -/
def takeUntilChar (stop : Char) (cs : List Char) (acc : List Char) : List Char × List Char :=
  match cs with
  | [] => (acc, [])
  | c :: rest =>
    if c = stop then (acc, c :: rest) else takeUntilChar stop rest (acc ++ [c])

/-- A valid URL scheme: an alphabetic character followed by alphanumerics,
`+`, `-` or `.`. -/
def schemeOk : List Char → Bool
  | [] => false
  | c :: rest => c.isAlpha && rest.all (fun d => d.isAlphanum || d = '+' || d = '-' || d = '.')

/-- Model of Go `url.Parse` for the absolute `scheme://host/path?query` URLs
this client uses: control characters and spaces are rejected, the scheme must
be present and well formed, and the rooted path is kept as its raw segments
(`url.Parse` performs no path cleaning). -/
def urlParse (s : String) : Except String URL :=
  if s.data.any (fun c => c.toNat < 32 || c = ' ') then
    Except.error "net/url: invalid control character in URL"
  else
    match takeUntilChar ':' s.data [] with
    | (schemeChars, rest) =>
      match rest with
      | ':' :: '/' :: '/' :: afterAuth =>
        if schemeOk schemeChars then
          match takeUntilChar '?' afterAuth [] with
          | (beforeQ, qrest) =>
            match takeUntilChar '/' beforeQ [] with
            | (hostChars, pathRest) =>
              Except.ok
                { scheme := String.mk schemeChars
                  host := String.mk hostChars
                  pathSegs :=
                    match pathRest with
                    | '/' :: ps => splitSlashAux ps []
                    | _ => []
                  rawQuery :=
                    match qrest with
                    | '?' :: qs => String.mk qs
                    | _ => "" }
        else Except.error "missing protocol scheme"
      | _ => Except.error "unsupported URL form"

/-- Rooted path cleaning, as `path.Clean` does through `path.Join` inside
`url.URL.JoinPath`: empty and `.` segments vanish, `..` pops the previous
segment and vanishes at the root.  (`JoinPath` additionally preserves one
trailing slash when the last element ends in `/`; a trailing empty segment is
not representable here and none of the statements below involve one.) -/
def cleanRooted (stack : List String) : List String → List String
  | [] => stack.reverse
  | s :: rest =>
    if s = "" ∨ s = "." then cleanRooted stack rest
    else if s = ".." then cleanRooted stack.tail rest
    else cleanRooted (s :: stack) rest

/-- Model of `url.URL.JoinPath` (every endpoint of the client is built with
it): the segments of the base path followed by the segments of each element —
elements may themselves contain `/` — the whole cleaned as a rooted path. -/
def URL.joinPath (u : URL) (elems : List String) : URL :=
  { u with pathSegs := cleanRooted [] (u.pathSegs ++ (elems.map splitSegs).flatten) }

/-- Modelled from the spec: `querystring.Values` applied to a
`RecordsFilter` — "each filter field maps to one query parameter;
absent/zero-value fields are omitted" — in struct field order. -/
def RecordsFilter.values (f : RecordsFilter) : List (String × String) :=
  (if f.suffix = "" then [] else [("suffix", f.suffix)]) ++
  (if f.recordName = "" then [] else [("recordName", f.recordName)]) ++
  (if f.recordType = "" then [] else [("recordType", f.recordType)])

/-- Bytewise lexicographic order on character lists (the order `sort.Strings`
uses inside `url.Values.Encode`, for ASCII keys). -/
def charListLe : List Char → List Char → Bool
  | [], _ => true
  | _ :: _, [] => false
  | a :: as, b :: bs => if a = b then charListLe as bs else decide (a.toNat < b.toNat)

/-- Bytewise lexicographic order on strings. -/
def strLe (a b : String) : Bool := charListLe a.data b.data

/-- `url.Values.Encode`: keys sorted, `k=v` pairs joined with `&`
(percent-escaping modelled as the identity, faithful for the characters
appearing in the filters considered). -/
def urlValuesEncode (pairs : List (String × String)) : String :=
  String.intercalate "&"
    ((List.insertionSort (fun p q => strLe p.1 q.1 = true) pairs).map (fun p => p.1 ++ "=" ++ p.2))

/-- An HTTP request as built by `makeRequest`: method, URL, headers in the
order they are set, and the optional body. -/
structure Request where
  method : String
  url : URL
  headers : List (String × String)
  body : Option String := none
deriving DecidableEq

/-- The fixed API endpoint (`defaultBaseURL`, client.go line 16). -/
def defaultBaseURL : String := "https://api.hosting.ionos.com/dns"

/-- The Ionos API client.  The `HTTPClient` field of the Go struct holds no
data the embedding consults: the transport's answer is instead the `Response`
parameter of each operation. -/
structure Client where
  baseURL : URL
  apiKey : String
deriving DecidableEq

/-- `NewClient` (lines 27-38): parse the fixed endpoint — the only failure
branch — and bind the key. -/
def NewClient (apiKey : String) : Except String Client :=
  match urlParse defaultBaseURL with
  | Except.error e => Except.error e
  | Except.ok baseURL => Except.ok { baseURL := baseURL, apiKey := apiKey }

/-- `makeRequest` (lines 158-169): build the request and set the three
headers.  `http.NewRequestWithContext` re-parses `endpoint.String()`, which
round-trips for the URLs built here; its failure branch is dead and the model
is total. -/
def Client.makeRequest (c : Client) (method : String) (endpoint : URL) (body : Option String) : Request :=
  { method := method
    url := endpoint
    headers :=
      [("Accept", "application/json"),
       ("Content-Type", "application/json"),
       ("X-API-Key", c.apiKey)]
    body := body }

/-- A delivered HTTP response: status code and body reader. -/
structure Response where
  statusCode : Nat
  body : Reader
deriving DecidableEq

/-- Failures an operation can return once a response was delivered: the
API-error path through `readError`, or a failed decode of a success body
("failed to parse response"). -/
inductive ClientFailure where
  | api (e : ClientError)
  | decode
deriving DecidableEq

/-- JSON escaping of one character as `json.Marshal` performs it for the
strings appearing here (HTML escaping of angle brackets and `&` is not
modelled). -/
def escapeJsonChar (c : Char) : List Char :=
  if c = '"' then ['\\', '"']
  else if c = '\\' then ['\\', '\\']
  else if c = '\n' then ['\\', 'n']
  else if c = '\t' then ['\\', 't']
  else if c = '\r' then ['\\', 'r']
  else [c]

/-- JSON escaping of a string. -/
def escapeJsonString (s : String) : String := String.mk (s.data.map escapeJsonChar).flatten

/-- A JSON string literal. -/
def quoteJson (s : String) : String := "\"" ++ escapeJsonString s ++ "\""

/-- Modelled from the spec: `json.Marshal` of one `Record` (the spec fixes the
field set; no statement below inspects this text). -/
def Record.marshal (r : Record) : String :=
  "\x7b" ++ quoteJson "name" ++ ":" ++ quoteJson r.name ++
  "," ++ quoteJson "type" ++ ":" ++ quoteJson r.type ++
  "," ++ quoteJson "content" ++ ":" ++ quoteJson r.content ++
  "," ++ quoteJson "ttl" ++ ":" ++ toString r.ttl ++
  "," ++ quoteJson "prio" ++ ":" ++ toString r.prio ++
  "," ++ quoteJson "disabled" ++ ":" ++ (if r.disabled then "true" else "false") ++
  "\x7d"

/-- `json.Marshal` of `[]Record` (the `ReplaceRecords` request body); it
cannot fail on this type, so the model is total. -/
def marshalRecords (records : List Record) : String :=
  "[" ++ String.intercalate "," (records.map Record.marshal) ++ "]"

/-- `ListZones` (lines 41-67) as a function of the delivered response: the
request sent, paired with the result. -/
def Client.listZones (c : Client) (resp : Response) : Request × Except ClientFailure (List Zone) :=
  let endpoint := c.baseURL.joinPath ["v1", "zones"]
  let req := c.makeRequest "GET" endpoint none
  (req,
    if resp.statusCode ≠ 200 then
      Except.error (ClientFailure.api (readError resp.body resp.statusCode))
    else
      match (jsonDecodeOne resp.body).bind decodeZones with
      | none => Except.error ClientFailure.decode
      | some zones => Except.ok zones)

/-- `ReplaceRecords` (lines 70-95) as a function of the delivered response. -/
def Client.replaceRecords (c : Client) (zoneID : String) (records : List Record) (resp : Response) :
    Request × Except ClientFailure Unit :=
  let endpoint := c.baseURL.joinPath ["v1", "zones", zoneID]
  let req := c.makeRequest "PATCH" endpoint (some (marshalRecords records))
  (req,
    if resp.statusCode ≠ 200 then
      Except.error (ClientFailure.api (readError resp.body resp.statusCode))
    else
      Except.ok ())

/-- `GetRecords` (lines 98-133) as a function of the delivered response: with
a non-nil filter the raw query of the request URL is set to the encoded
filter values; the success body decodes as a `CustomerZone`, of which the
records are returned. -/
def Client.getRecords (c : Client) (zoneID : String) (filter : Option RecordsFilter) (resp : Response) :
    Request × Except ClientFailure (List Record) :=
  let endpoint := c.baseURL.joinPath ["v1", "zones", zoneID]
  let req0 := c.makeRequest "GET" endpoint none
  let req :=
    match filter with
    | some f => { req0 with url := { req0.url with rawQuery := urlValuesEncode f.values } }
    | none => req0
  (req,
    if resp.statusCode ≠ 200 then
      Except.error (ClientFailure.api (readError resp.body resp.statusCode))
    else
      match (jsonDecodeOne resp.body).bind decodeCustomerZone with
      | none => Except.error ClientFailure.decode
      | some zone => Except.ok zone.records)

/-- `RemoveRecord` (lines 136-156) as a function of the delivered response. -/
def Client.removeRecord (c : Client) (zoneID : String) (recordID : String) (resp : Response) :
    Request × Except ClientFailure Unit :=
  let endpoint := c.baseURL.joinPath ["v1", "zones", zoneID, "records", recordID]
  let req := c.makeRequest "DELETE" endpoint none
  (req,
    if resp.statusCode ≠ 200 then
      Except.error (ClientFailure.api (readError resp.body resp.statusCode))
    else
      Except.ok ())

/-- Number of body bytes `RemoveRecord` reads before its deferred `Close`
runs: the non-200 path reads everything through `readError`'s `io.ReadAll`
(line 172); the 200 path (lines 151-155) returns without touching the body. -/
def removeRecordBytesRead (resp : Response) : Nat :=
  if resp.statusCode ≠ 200 then resp.body.bytes.length else 0

/-- Number of body bytes `ReplaceRecords` reads before its deferred `Close`
runs (lines 88-94): identical body handling to `RemoveRecord`. -/
def replaceRecordsBytesRead (resp : Response) : Nat :=
  if resp.statusCode ≠ 200 then resp.body.bytes.length else 0

deriving instance DecidableEq for Except

/-- The parsed form of `defaultBaseURL`. -/
def ionosBaseURL : URL :=
  { scheme := "https", host := "api.hosting.ionos.com", pathSegs := ["dns"], rawQuery := "" }

/-- `NewClient` evaluated: the endpoint constant parses, so the error branch
is dead code. -/
theorem newClient_eq (apiKey : String) :
    NewClient apiKey = Except.ok { baseURL := ionosBaseURL, apiKey := apiKey } := rfl

/-- A plain path segment: nonempty, not a dot segment, and free of the path
separator and of the URL metacharacters the embedding leaves uninterpreted. -/
def plainSeg (s : String) : Prop :=
  s ≠ "" ∧ s ≠ "." ∧ s ≠ ".." ∧ '/' ∉ s.data ∧ '%' ∉ s.data ∧ '?' ∉ s.data ∧ '#' ∉ s.data

instance (s : String) : Decidable (plainSeg s) := by
  unfold plainSeg; infer_instance

theorem splitSlashAux_no_slash : ∀ (cs : List Char) (acc : List Char), '/' ∉ cs →
    splitSlashAux cs acc = [String.mk (acc ++ cs)] := by
  intro cs
  induction cs with
  | nil => intro acc _; simp [splitSlashAux]
  | cons c rest ih =>
    intro acc h
    have hc : ¬ c = '/' := by
      intro e
      exact h (e ▸ List.mem_cons_self c rest)
    have hrest : '/' ∉ rest := fun hm => h (List.mem_cons_of_mem _ hm)
    simp only [splitSlashAux]
    rw [if_neg hc, ih (acc ++ [c]) hrest]
    simp

/-- A string without `/` is a single path segment. -/
theorem splitSegs_no_slash (s : String) (h : '/' ∉ s.data) : splitSegs s = [s] := by
  unfold splitSegs
  rw [splitSlashAux_no_slash s.data [] h]
  simp

/-- Cleaning a rooted path of plain segments changes nothing. -/
theorem cleanRooted_plain : ∀ (l stack : List String),
    (∀ s ∈ l, s ≠ "" ∧ s ≠ "." ∧ s ≠ "..") →
    cleanRooted stack l = stack.reverse ++ l := by
  intro l
  induction l with
  | nil => intro stack _; simp [cleanRooted]
  | cons s rest ih =>
    intro stack h
    obtain ⟨h1, h2, h3⟩ := h s (List.mem_cons_self _ _)
    have hrest : ∀ t ∈ rest, t ≠ "" ∧ t ≠ "." ∧ t ≠ ".." :=
      fun t ht => h t (List.mem_cons_of_mem _ ht)
    simp only [cleanRooted]
    rw [if_neg (by simp [h1, h2]), if_neg h3, ih (s :: stack) hrest]
    simp

/-- Path of the `/v1/zones/\x7bzoneID\x7d` endpoints for a plain zone id. -/
theorem pathSegs_zone (z : String) (hz : plainSeg z) :
    (ionosBaseURL.joinPath ["v1", "zones", z]).pathSegs = ["dns", "v1", "zones", z] := by
  obtain ⟨h1, h2, h3, h4, h5, h6, h7⟩ := hz
  have hsz : splitSegs z = [z] := splitSegs_no_slash z h4
  have hflat : (["v1", "zones", z].map splitSegs).flatten = ["v1", "zones", z] := by
    rw [show (["v1", "zones", z].map splitSegs).flatten
          = "v1" :: "zones" :: (splitSegs z ++ []) from rfl, hsz]
    simp
  have hmem : ∀ s ∈ ["dns", "v1", "zones", z], s ≠ "" ∧ s ≠ "." ∧ s ≠ ".." := by
    intro s hs
    simp only [List.mem_cons, List.not_mem_nil, or_false] at hs
    rcases hs with rfl | rfl | rfl | rfl
    · exact ⟨by decide, by decide, by decide⟩
    · exact ⟨by decide, by decide, by decide⟩
    · exact ⟨by decide, by decide, by decide⟩
    · exact ⟨h1, h2, h3⟩
  show cleanRooted [] (["dns"] ++ (["v1", "zones", z].map splitSegs).flatten) = _
  rw [hflat]
  exact cleanRooted_plain ["dns", "v1", "zones", z] [] hmem

/-- Path of the `/v1/zones/\x7bzoneID\x7d/records/\x7brecordID\x7d` endpoint
for plain ids. -/
theorem pathSegs_record (z r : String) (hz : plainSeg z) (hr : plainSeg r) :
    (ionosBaseURL.joinPath ["v1", "zones", z, "records", r]).pathSegs
      = ["dns", "v1", "zones", z, "records", r] := by
  obtain ⟨hz1, hz2, hz3, hz4, _, _, _⟩ := hz
  obtain ⟨hr1, hr2, hr3, hr4, _, _, _⟩ := hr
  have hsz : splitSegs z = [z] := splitSegs_no_slash z hz4
  have hsr : splitSegs r = [r] := splitSegs_no_slash r hr4
  have hflat : (["v1", "zones", z, "records", r].map splitSegs).flatten
      = ["v1", "zones", z, "records", r] := by
    rw [show (["v1", "zones", z, "records", r].map splitSegs).flatten
          = "v1" :: "zones" :: (splitSegs z ++ "records" :: (splitSegs r ++ [])) from rfl,
        hsz, hsr]
    simp
  have hmem : ∀ s ∈ ["dns", "v1", "zones", z, "records", r], s ≠ "" ∧ s ≠ "." ∧ s ≠ ".." := by
    intro s hs
    simp only [List.mem_cons, List.not_mem_nil, or_false] at hs
    rcases hs with rfl | rfl | rfl | rfl | rfl | rfl
    · exact ⟨by decide, by decide, by decide⟩
    · exact ⟨by decide, by decide, by decide⟩
    · exact ⟨by decide, by decide, by decide⟩
    · exact ⟨hz1, hz2, hz3⟩
    · exact ⟨by decide, by decide, by decide⟩
    · exact ⟨hr1, hr2, hr3⟩
  show cleanRooted [] (["dns"] ++ (["v1", "zones", z, "records", r].map splitSegs).flatten) = _
  rw [hflat]
  exact cleanRooted_plain ["dns", "v1", "zones", z, "records", r] [] hmem

/-- A demonstration client, as produced by `NewClient "token123"`. -/
def demoClient : Client := { baseURL := ionosBaseURL, apiKey := "token123" }

/-- A delivered non-200 response with a plain-text body. -/
def resp404 : Response := { statusCode := 404, body := { bytes := "nope" } }

/-- A delivered 200 response with a nonempty body. -/
def resp200x : Response := { statusCode := 200, body := { bytes := "x" } }

/-- The concrete 200 body of C2. -/
def zoneArrayBody : String :=
  "[\x7b\"id\":\"1\",\"name\":\"www\",\"type\":\"A\",\"content\":\"1.2.3.4\"\x7d]"

/-- The concrete 200 response of C2. -/
def zoneArrayResp : Response := { statusCode := 200, body := { bytes := zoneArrayBody } }

/-- The headers `makeRequest` sets, for API key `k`. -/
def apiHeaders (k : String) : List (String × String) :=
  [("Accept", "application/json"), ("Content-Type", "application/json"), ("X-API-Key", k)]

/-- C1: on the error-decoding path the whole body is read and the returned
error carries the status code together with either the structured messages
(when the bytes unmarshal as the vendor error JSON) or the raw body text
(when they do not). -/
theorem readError_two_tier (body : Reader) (statusCode : Nat) :
    (readError body statusCode).statusCode = statusCode ∧
    ((∃ es, unmarshalErrors body.bytes = some es ∧
        readError body statusCode = { statusCode := statusCode, errors := es, message := "" }) ∨
     (unmarshalErrors body.bytes = none ∧
        readError body statusCode
          = { statusCode := statusCode, errors := [], message := body.bytes })) := by
  cases h : unmarshalErrors body.bytes with
  | none => refine ⟨?_, Or.inr ⟨rfl, ?_⟩⟩ <;> simp [readError, h]
  | some es => refine ⟨?_, Or.inl ⟨es, rfl, ?_⟩⟩ <;> simp [readError, h]

/-- C2 as stated is false: on the 200 response carrying the given JSON array
body, `GetRecords` does not succeed — its success body is a `CustomerZone`
object envelope, and decoding a JSON array into it fails. -/
theorem getRecords_zoneArray_fails :
    NewClient "token123" = Except.ok demoClient ∧
    (demoClient.getRecords "zone1" none zoneArrayResp).2 = Except.error ClientFailure.decode :=
  ⟨rfl, by decide⟩

/-- C2 amended: on that response `ListZones` succeeds with the single zone
carrying id "1" and name "www" (object keys outside the `Zone` model are
ignored), while `GetRecords` fails with a decode error because its success
body is an object envelope, not an array. -/
theorem listZones_zoneArray_decodes :
    (demoClient.listZones zoneArrayResp).2 = Except.ok [{ id := "1", name := "www" }] ∧
    (demoClient.getRecords "zone1" none zoneArrayResp).2 = Except.error ClientFailure.decode :=
  ⟨by decide, by decide⟩

/-- C3: each of the four operations succeeds only when the status code is
exactly 200; on any other status code every one of them fails through the
single `readError` error-decoding path. -/
theorem ops_success_iff_200 (c : Client) (zoneID recordID : String)
    (records : List Record) (filter : Option RecordsFilter) (resp : Response) :
    ((c.listZones resp).2.isOk = true → resp.statusCode = 200) ∧
    ((c.replaceRecords zoneID records resp).2.isOk = true → resp.statusCode = 200) ∧
    ((c.getRecords zoneID filter resp).2.isOk = true → resp.statusCode = 200) ∧
    ((c.removeRecord zoneID recordID resp).2.isOk = true → resp.statusCode = 200) ∧
    (resp.statusCode ≠ 200 →
      (c.listZones resp).2
          = Except.error (ClientFailure.api (readError resp.body resp.statusCode)) ∧
      (c.replaceRecords zoneID records resp).2
          = Except.error (ClientFailure.api (readError resp.body resp.statusCode)) ∧
      (c.getRecords zoneID filter resp).2
          = Except.error (ClientFailure.api (readError resp.body resp.statusCode)) ∧
      (c.removeRecord zoneID recordID resp).2
          = Except.error (ClientFailure.api (readError resp.body resp.statusCode))) := by
  by_cases h : resp.statusCode = 200
  · exact ⟨fun _ => h, fun _ => h, fun _ => h, fun _ => h, fun hne => absurd h hne⟩
  · refine ⟨?_, ?_, ?_, ?_, fun _ => ⟨?_, ?_, ?_, ?_⟩⟩ <;>
      simp [Client.listZones, Client.replaceRecords, Client.getRecords, Client.removeRecord,
        Except.isOk, Except.toBool, h]

/-- Witness for C3 at a concrete non-200 response. -/
theorem ops_success_iff_200_witness :
    (demoClient.removeRecord "z" "r" resp404).2
      = Except.error (ClientFailure.api { statusCode := 404, errors := [], message := "nope" }) := by
  have h := (ops_success_iff_200 demoClient "z" "r" [] none resp404).2.2.2.2 (by decide)
  exact h.2.2.2.trans (by decide)

/-- C4: every request built by a client constructed with key `k` carries the
headers Accept: application/json, Content-Type: application/json and
X-API-Key: `k`, on all four operations. -/
theorem ops_headers (k : String) (c : Client) (h : NewClient k = Except.ok c)
    (zoneID recordID : String) (records : List Record) (filter : Option RecordsFilter)
    (resp : Response) :
    (c.listZones resp).1.headers = apiHeaders k ∧
    (c.replaceRecords zoneID records resp).1.headers = apiHeaders k ∧
    (c.getRecords zoneID filter resp).1.headers = apiHeaders k ∧
    (c.removeRecord zoneID recordID resp).1.headers = apiHeaders k := by
  rw [newClient_eq] at h
  injection h with h'
  subst h'
  refine ⟨rfl, rfl, ?_, rfl⟩
  cases filter <;> rfl

/-- Witness for C4 at a concrete key and request. -/
theorem ops_headers_witness :
    ((⟨ionosBaseURL, "secret"⟩ : Client).listZones resp404).1.headers
      = [("Accept", "application/json"), ("Content-Type", "application/json"),
         ("X-API-Key", "secret")] :=
  (ops_headers "secret" ⟨ionosBaseURL, "secret"⟩ rfl "z" "r" [] none resp404).1

/-- C5: with a non-nil filter the query string of the GetRecords request is
the key-sorted `&`-joined encoding of exactly the non-zero-value fields of
the filter, one parameter per field (the sort is a permutation, so exactly
those pairs appear); with a nil filter the request carries no query string. -/
theorem getRecords_query_exact (k : String) (c : Client) (h : NewClient k = Except.ok c)
    (zoneID : String) (f : RecordsFilter) (resp : Response) :
    (c.getRecords zoneID (some f) resp).1.url.rawQuery = urlValuesEncode f.values ∧
    f.values
      = (if f.suffix = "" then [] else [("suffix", f.suffix)]) ++
        (if f.recordName = "" then [] else [("recordName", f.recordName)]) ++
        (if f.recordType = "" then [] else [("recordType", f.recordType)]) ∧
    (List.insertionSort (fun p q => strLe p.1 q.1 = true) f.values).Perm f.values ∧
    (c.getRecords zoneID none resp).1.url.rawQuery = "" := by
  rw [newClient_eq] at h
  injection h with h'
  subst h'
  exact ⟨rfl, rfl, List.perm_insertionSort _ _, rfl⟩

/-- Witness for C5 at a concrete filter. -/
theorem getRecords_query_exact_witness :
    ((⟨ionosBaseURL, "secret"⟩ : Client).getRecords "z"
        (some { recordName := "www", recordType := "A" }) resp404).1.url.rawQuery
      = "recordName=www&recordType=A" ∧
    ((⟨ionosBaseURL, "secret"⟩ : Client).getRecords "z" none resp404).1.url.rawQuery = "" := by
  have h := getRecords_query_exact "secret" ⟨ionosBaseURL, "secret"⟩ rfl "z"
    { recordName := "www", recordType := "A" } resp404
  exact ⟨h.1.trans (by decide), h.2.2.2⟩

/-- C6: a non-200 response whose body is the non-JSON text
"upstream timeout" yields the error carrying that status code and the raw
text as fallback message; the structured variant is not produced
(unmarshalling fails, the errors list stays empty). -/
theorem readError_upstream_timeout :
    unmarshalErrors "upstream timeout" = none ∧
    readError { bytes := "upstream timeout", failsAfter := false } 502
      = { statusCode := 502, errors := [], message := "upstream timeout" } ∧
    (demoClient.removeRecord "z" "r"
        { statusCode := 502, body := { bytes := "upstream timeout" } }).2
      = Except.error (ClientFailure.api
          { statusCode := 502, errors := [], message := "upstream timeout" }) := by decide

/-- C7 as stated fails: `JoinPath` cleans dot segments, so for zoneID `..`
the RemoveRecord request path is not `/v1/zones/../records/rid` beneath the
base path but `/v1/records/rid`. -/
theorem removeRecord_dotdot_path :
    (demoClient.removeRecord ".." "rid" resp404).1.url.pathSegs
      = ["dns", "v1", "records", "rid"] ∧
    (demoClient.removeRecord ".." "rid" resp404).1.url.pathString
      ≠ "/dns/v1/zones/../records/rid" ∧
    (demoClient.removeRecord ".." "rid" resp404).1.url.pathString
      = "/dns/v1/records/rid" := by decide

/-- C7 amended: for every zoneID and recordID that are plain path segments
(nonempty, not `.` or `..`, free of `/`, `%`, `?`, `#`), the four operations
issue exactly the methods and paths of the interface table, joined beneath
the fixed base URL. -/
theorem ops_method_path (k : String) (c : Client) (h : NewClient k = Except.ok c)
    (zoneID recordID : String) (hz : plainSeg zoneID) (hr : plainSeg recordID)
    (records : List Record) (filter : Option RecordsFilter) (resp : Response) :
    ((c.listZones resp).1.method = "GET" ∧
      (c.listZones resp).1.url.pathSegs = ["dns", "v1", "zones"]) ∧
    ((c.replaceRecords zoneID records resp).1.method = "PATCH" ∧
      (c.replaceRecords zoneID records resp).1.url.pathSegs = ["dns", "v1", "zones", zoneID]) ∧
    ((c.getRecords zoneID filter resp).1.method = "GET" ∧
      (c.getRecords zoneID filter resp).1.url.pathSegs = ["dns", "v1", "zones", zoneID]) ∧
    ((c.removeRecord zoneID recordID resp).1.method = "DELETE" ∧
      (c.removeRecord zoneID recordID resp).1.url.pathSegs
        = ["dns", "v1", "zones", zoneID, "records", recordID]) ∧
    (c.listZones resp).1.url.scheme = "https" ∧
    (c.listZones resp).1.url.host = "api.hosting.ionos.com" := by
  rw [newClient_eq] at h
  injection h with h'
  subst h'
  refine ⟨⟨rfl, rfl⟩, ⟨rfl, pathSegs_zone zoneID hz⟩, ⟨?_, ?_⟩,
    ⟨rfl, pathSegs_record zoneID recordID hz hr⟩, rfl, rfl⟩
  · cases filter <;> rfl
  · cases filter
    · exact pathSegs_zone zoneID hz
    · exact pathSegs_zone zoneID hz

/-- Witness for the amended C7 at concrete plain ids. -/
theorem ops_method_path_witness :
    ((⟨ionosBaseURL, "secret"⟩ : Client).removeRecord "zone9" "rec7" resp404).1.method
        = "DELETE" ∧
    ((⟨ionosBaseURL, "secret"⟩ : Client).removeRecord "zone9" "rec7" resp404).1.url.pathSegs
        = ["dns", "v1", "zones", "zone9", "records", "rec7"] := by
  have h := ops_method_path "secret" ⟨ionosBaseURL, "secret"⟩ rfl "zone9" "rec7"
    (by decide) (by decide) [] none resp404
  exact h.2.2.2.1

/-- C8: `NewClient` succeeds for every API key — the only failure branch
parses the fixed endpoint constant, which always parses — and the returned
client's BaseURL is the parse of that constant. -/
theorem newClient_always_ok (apiKey : String) :
    NewClient apiKey = Except.ok { baseURL := ionosBaseURL, apiKey := apiKey } ∧
    urlParse defaultBaseURL = Except.ok ionosBaseURL ∧
    ionosBaseURL.scheme = "https" ∧
    ionosBaseURL.host = "api.hosting.ionos.com" ∧
    ionosBaseURL.pathString = "/dns" :=
  ⟨newClient_eq apiKey, by decide, rfl, rfl, by decide⟩

/-- C9 as stated fails: on a 200 response with a nonempty body, RemoveRecord
and ReplaceRecords succeed but read zero bytes of that body — it is closed
without being drained. -/
theorem success_does_not_drain :
    (demoClient.removeRecord "z" "r" resp200x).2 = Except.ok () ∧
    (demoClient.replaceRecords "z" [] resp200x).2 = Except.ok () ∧
    removeRecordBytesRead resp200x = 0 ∧
    replaceRecordsBytesRead resp200x = 0 ∧
    resp200x.body.bytes.length = 1 ∧
    removeRecordBytesRead resp200x ≠ resp200x.body.bytes.length := by decide

/-- C9 amended: on every 200 response RemoveRecord and ReplaceRecords return
no error and close the body having read none of it; the body is fully read
only on the non-200 path, by `readError`'s `io.ReadAll`. -/
theorem removeReplace_success_no_drain (c : Client) (zoneID recordID : String)
    (records : List Record) (resp : Response) :
    (resp.statusCode = 200 →
      (c.removeRecord zoneID recordID resp).2 = Except.ok () ∧
      (c.replaceRecords zoneID records resp).2 = Except.ok () ∧
      removeRecordBytesRead resp = 0 ∧
      replaceRecordsBytesRead resp = 0) ∧
    (resp.statusCode ≠ 200 →
      removeRecordBytesRead resp = resp.body.bytes.length ∧
      replaceRecordsBytesRead resp = resp.body.bytes.length) := by
  constructor
  · intro h
    refine ⟨?_, ?_, ?_, ?_⟩ <;>
      simp [Client.removeRecord, Client.replaceRecords, removeRecordBytesRead,
        replaceRecordsBytesRead, h]
  · intro h
    refine ⟨?_, ?_⟩ <;>
      simp [removeRecordBytesRead, replaceRecordsBytesRead, h]

/-- Witness for the amended C9 at a concrete 200 response. -/
theorem removeReplace_success_no_drain_witness :
    (demoClient.removeRecord "z" "r" resp200x).2 = Except.ok () ∧
    removeRecordBytesRead resp200x = 0 := by
  have h := (removeReplace_success_no_drain demoClient "z" "r" [] resp200x).1 (by decide)
  exact ⟨h.1, h.2.2.1⟩

/-- C10: `readError` ignores a failed body read, always yields an error value
carrying the given status code, and on an empty (or unreadable) body the
unmarshal of zero bytes fails, leaving the raw-text fallback with the empty
message. -/
theorem readError_ignores_read_failure (bytes : String) (readFailed : Bool) (statusCode : Nat) :
    readError { bytes := bytes, failsAfter := readFailed } statusCode
      = readError { bytes := bytes, failsAfter := false } statusCode ∧
    (readError { bytes := bytes, failsAfter := readFailed } statusCode).statusCode = statusCode ∧
    unmarshalErrors "" = none ∧
    (bytes = "" →
      readError { bytes := bytes, failsAfter := readFailed } statusCode
        = { statusCode := statusCode, errors := [], message := "" }) := by
  refine ⟨rfl, ?_, by decide, ?_⟩
  · cases h : unmarshalErrors bytes <;> simp [readError, h]
  · rintro rfl
    have h : unmarshalErrors "" = none := by decide
    simp [readError, h]

/-- Witness for C10 at an unreadable empty body. -/
theorem readError_ignores_read_failure_witness :
    readError { bytes := "", failsAfter := true } 503
      = { statusCode := 503, errors := [], message := "" } :=
  (readError_ignores_read_failure "" true 503).2.2.2 rfl

end Ionos
